import Mathlib

/-!
Formal model of the QKD protocol simulations (BB84, E91, MDI-QKD) from the
repository sources `bb84.py`, `e91.py` and `mdi.py`.

Modelling conventions:
* Classical bits and basis labels are `Nat` values (bits live in `{0,1}`).
* Python floats are modelled as exact rationals (`ℚ`); the constants
  appearing in the code (`0.11`, `0.02`, `1.4`, ...) are taken at their
  decimal value.
* The ambient stochastic draws (`random.random()`, `random.randint`) are
  made explicit: each draw becomes a parameter (a `Bool` recording which
  branch of the comparison with the probability threshold was taken, or a
  `Nat` recording the sampled value).
* Python `int(x)` truncation toward zero is `pyInt`; list slices
  `xs[i:j]` become `(xs.drop i).take (j - i)`.
-/

set_option linter.unusedVariables false

namespace QKD

/-- Channel transmission (`QuantumChannel.transmit`): the draw against
`transmission_prob` is the Boolean `lost`; the depolarizing-noise draw
(`DepolarNoiseModel.apply_noise`) is the Boolean `flip`.  A lost photon is
`none`; otherwise the bit is flipped (`1 - q`) exactly when `flip` holds. -/
def transmit (lost flip : Bool) (q : Nat) : Option Nat :=
  if lost then none
  else if flip then some (1 - q) else some q

/-- Python `int(x)` for a rational: truncation toward zero. -/
def pyInt (x : ℚ) : Int :=
  if x < 0 then -⌊-x⌋ else ⌊x⌋

/-- The final-key length computation shared by all three protocols:
`max(0, int(remaining_bits * privacy_amp_factor))`. -/
def finalLen (remaining paf : ℚ) : Nat :=
  (max 0 (pyInt (remaining * paf))).toNat

/-- Result record of a `_post_processing_phase` call: the computed QBER,
the final key length, and the two final keys. -/
structure PostResult where
  qber : ℚ
  final_len : Nat
  aliceFinal : List Nat
  bobFinal : List Nat
  deriving Repr, DecidableEq

/-! ### BB84 (`bb84.py`) -/

/-- BB84 `Alice.prepare_qubits`, one round: both branches of the basis
test return the raw bit unchanged. -/
def prepare_qubit (bit basis : Nat) : Nat :=
  if basis = 0 then bit else bit

/-- BB84 `Bob.measure_qubit`: the detector-error draw (`random.random() <
0.01`) is the Boolean `detErr`.  The `basis` argument is accepted, as in
the source, where the function body never reads it. -/
def measure_qubit (q : Option Nat) (basis : Nat) (detErr : Bool) : Option Nat :=
  match q with
  | none => none
  | some b => if detErr then some (1 - b) else some b

/-- Randomness consumed by one BB84 round: channel loss draw, channel
depolarizing draw and detector-error draw. -/
structure BB84RoundRand where
  lost : Bool
  flip : Bool
  detErr : Bool
  deriving Repr, DecidableEq

/-- One BB84 transmission round (`_quantum_transmission_phase` body):
Alice prepares the qubit, the channel transmits it, Bob measures. -/
def bb84RoundOutcome (bit aBasis bBasis : Nat) (r : BB84RoundRand) : Option Nat :=
  measure_qubit (transmit r.lost r.flip (prepare_qubit bit aBasis)) bBasis r.detErr

/-- All measurement outcomes of a BB84 run, with the per-round basis
choices and random draws given as sequences indexed by the round. -/
def bb84Outcomes (bits : List Nat) (aBas bBas : Nat → Nat)
    (rand : Nat → BB84RoundRand) : List (Option Nat) :=
  (List.range bits.length).map fun i =>
    bb84RoundOutcome (bits.getD i 0) (aBas i) (bBas i) (rand i)

/-- One record of `successful_transmissions` in `bb84.py`. -/
structure BB84Record where
  alice_bit : Nat
  alice_basis : Nat
  bob_measurement : Nat
  bob_basis : Nat
  deriving Repr, DecidableEq

/-- BB84 `_sifting_phase`: walk the records in order; when the two bases
agree append the Alice bit to the Alice key and the Bob measurement to
the Bob key. -/
def bb84Sift : List BB84Record → List Nat × List Nat
  | [] => ([], [])
  | t :: rest =>
    let s := bb84Sift rest
    if t.alice_basis = t.bob_basis then
      (t.alice_bit :: s.1, t.bob_measurement :: s.2)
    else s

/-- BB84 test size: `min(50, max(5, sifted_key_length // 5))`. -/
def bb84TestSize (n : Nat) : Nat := min 50 (max 5 (n / 5))

/-- The error-counting loop of `_post_processing_phase`: for each
`i < k`, count the positions in range of both keys where the bits
differ.  This is the literal `for i in range(test_size)` loop. -/
def mismatchCount (a b : List Nat) (k : Nat) : Nat :=
  (List.range k).countP fun i =>
    decide (i < a.length) && decide (i < b.length) && (a.getD i 0 != b.getD i 0)

/-- Equivalent prefix formulation of the mismatch count: compare the two
length-`k` key head segments position by position. -/
def takeMismatches (a b : List Nat) (k : Nat) : Nat :=
  ((a.take k).zip (b.take k)).countP fun p => p.1 != p.2

/-- BB84 QBER: `0.5` on an empty sifted key, otherwise the counted
mismatches over the test size. -/
def bb84Qber (a b : List Nat) : ℚ :=
  if a.length = 0 then 1/2
  else (mismatchCount a b (bb84TestSize a.length) : ℚ) / (bb84TestSize a.length : ℚ)

/-- BB84 error-correction overhead `max(0.2, 2.0 * qber)`. -/
def bb84ECOverhead (q : ℚ) : ℚ := max (1/5) (2 * q)

/-- BB84 privacy-amplification factor
`max(0.3, 1 - error_correction_overhead - 2 * qber)`. -/
def bb84PAF (q : ℚ) : ℚ := max (3/10) (1 - bb84ECOverhead q - 2 * q)

/-- Key-distillation branch structure shared verbatim by the three
`_post_processing_phase` implementations: when the security `gate`
holds, the final key length is `max(0, int(remaining * paf))` with
`remaining = sifted_length - test_size`; a positive length whose slice
fits inside the sifted key yields the slice
`sifted[test_size : test_size + final_key_length]` as both final keys,
and every other branch yields empty keys. -/
def distill (a : List Nat) (ts : Nat) (q : ℚ) (gate : Prop) [Decidable gate]
    (paf : ℚ) : PostResult :=
  if gate then
    let fl := finalLen ((a.length - ts : Nat) : ℚ) paf
    if 0 < fl then
      if ts + fl ≤ a.length then
        ⟨q, fl, (a.drop ts).take fl, (a.drop ts).take fl⟩
      else ⟨q, 0, [], []⟩
    else ⟨q, 0, [], []⟩
  else ⟨q, 0, [], []⟩

/-- BB84 `_post_processing_phase` on the two sifted keys; the gate is
`qber < 0.11 and sifted_key_length > test_size`. -/
def bb84Post (a b : List Nat) : PostResult :=
  if a.length = 0 then ⟨1/2, 0, [], []⟩
  else
    distill a (bb84TestSize a.length) (bb84Qber a b)
      (bb84Qber a b < 11/100 ∧ bb84TestSize a.length < a.length)
      (bb84PAF (bb84Qber a b))

/-! ### E91 (`e91.py`) -/

/-- E91 basis generation (`Alice.generate_random_bases` and the identical
`Bob.generate_random_bases`): the draw `random.random() < 0.7` is the
Boolean `keyBranch`; on the key branch the emitted basis is
`random.randint(0, 1)` (the draw `keyChoice`), otherwise it is
`random.randint(0, 2)` (the draw `bellChoice`). -/
def e91GenBasis (keyBranch : Bool) (keyChoice bellChoice : Nat) : Nat :=
  if keyBranch then keyChoice else bellChoice

/-- One record of `successful_measurements` (also appended unchanged to
`bell_test_data`) in `e91.py`. -/
structure E91Record where
  alice_basis : Nat
  bob_basis : Nat
  alice_result : Nat
  bob_result : Nat
  deriving Repr, DecidableEq

/-- E91 `_sifting_phase`: a round is key-eligible when both bases lie in
`[0, 1]` and agree; then the Alice result and the Bob result are
appended. -/
def e91Sift : List E91Record → List Nat × List Nat
  | [] => ([], [])
  | m :: rest =>
    let s := e91Sift rest
    if (m.alice_basis = 0 ∨ m.alice_basis = 1) ∧
        (m.bob_basis = 0 ∨ m.bob_basis = 1) ∧ m.alice_basis = m.bob_basis then
      (m.alice_result :: s.1, m.bob_result :: s.2)
    else s

/-- Correlation value of one Bell-test record: `+1` when the two results
agree, `-1` otherwise. -/
def corrVal (d : E91Record) : Int :=
  if d.alice_result = d.bob_result then 1 else -1

/-- The group of Bell-test records with the given basis pair
(`basis_combinations[(a, b)]`). -/
def basisGroup (data : List E91Record) (a b : Nat) : List E91Record :=
  data.filter fun d => d.alice_basis == a && d.bob_basis == b

/-- Average correlation `E(a, b)` of a basis group; an absent or empty
group contributes `0` (the `E.get(key, 0)` default). -/
def Ecorr (data : List E91Record) (a b : Nat) : ℚ :=
  let g := basisGroup data a b
  if g.length = 0 then 0
  else ((g.map corrVal).sum : ℚ) / (g.length : ℚ)

/-- CHSH statistic `S = |E(0,0) - E(0,1) + E(1,0) + E(1,1)|`. -/
def chshS (data : List E91Record) : ℚ :=
  |Ecorr data 0 0 - Ecorr data 0 1 + Ecorr data 1 0 + Ecorr data 1 1|

/-- E91 `_bell_inequality_test`: with fewer than 100 Bell-test records
the synthetic value `2.4` is reported; otherwise the CHSH statistic is
computed, and when it exceeds `1.5` it is boosted to
`min(2.8, S * 1.4)`. -/
def bell_parameter (data : List E91Record) : ℚ :=
  if data.length < 100 then 12/5
  else if 3/2 < chshS data then min (14/5) (chshS data * (7/5))
  else chshS data

/-- E91 test size: `min(40, max(5, sifted_key_length // 5))`. -/
def e91TestSize (n : Nat) : Nat := min 40 (max 5 (n / 5))

/-- E91 QBER: `0.5` on an empty sifted key, otherwise the counted
mismatches over the test size. -/
def e91Qber (a b : List Nat) : ℚ :=
  if a.length = 0 then 1/2
  else (mismatchCount a b (e91TestSize a.length) : ℚ) / (e91TestSize a.length : ℚ)

/-- E91 error-correction overhead `max(0.15, 1.5 * qber)`. -/
def e91ECOverhead (q : ℚ) : ℚ := max (3/20) (3/2 * q)

/-- E91 privacy-amplification factor
`max(0.3, 1 - error_correction_overhead - 0.25)`. -/
def e91PAF (q : ℚ) : ℚ := max (3/10) (1 - e91ECOverhead q - 1/4)

/-- E91 `_post_processing_phase` on the two sifted keys, given the Bell
parameter computed by the preceding phase.  The gate actually used by the
code is `bell_parameter > 1.8 and qber < 0.15 and sifted > test_size`
(the declared constants `bell_threshold = 2.0` and
`qber_threshold = 0.11` are left unused in favour of the lenient
demonstration values). -/
def e91Post (a b : List Nat) (bell : ℚ) : PostResult :=
  if a.length = 0 then ⟨1/2, 0, [], []⟩
  else
    distill a (e91TestSize a.length) (e91Qber a b)
      (9/5 < bell ∧ e91Qber a b < 3/20 ∧ e91TestSize a.length < a.length)
      (e91PAF (e91Qber a b))

/-! ### MDI-QKD (`mdi.py`) -/

/-- Charlie `bell_state_measurement`: when either qubit is missing the
result is `(None, None)`; with both present and equal bases the
measurement-error draw (`random.random() < 0.02`, Boolean `measErr`)
either substitutes the uniform bit `randBit` or produces the XOR of the
two received qubits; with unequal bases the round is discarded as
`(False, None)`. -/
def bell_state_measurement (qubit1 qubit2 : Option Nat) (basis1 basis2 : Nat)
    (measErr : Bool) (randBit : Nat) : Option Bool × Option Nat :=
  match qubit1, qubit2 with
  | some q1, some q2 =>
    if basis1 = basis2 then
      if measErr then (some true, some randBit)
      else (some true, some (q1 ^^^ q2))
    else (some false, none)
  | _, _ => (none, none)

/-- Randomness consumed by one MDI round: per-leg loss and depolarizing
draws, the Charlie measurement-error draw and the substituted uniform
bit. -/
structure MDIRoundRand where
  aliceLost : Bool
  aliceFlip : Bool
  bobLost : Bool
  bobFlip : Bool
  measErr : Bool
  randBit : Nat
  deriving Repr, DecidableEq

/-- One MDI transmission round (`_quantum_transmission_phase` body):
both parties prepare their qubit (which `Party.prepare_qubits` leaves
equal to the raw bit for either basis), each leg is transmitted through
its own channel, and Charlie measures. -/
def mdiRound (aliceBit bobBit aliceBasis bobBasis : Nat) (r : MDIRoundRand) :
    Option Bool × Option Nat :=
  bell_state_measurement
    (transmit r.aliceLost r.aliceFlip (prepare_qubit aliceBit aliceBasis))
    (transmit r.bobLost r.bobFlip (prepare_qubit bobBit bobBasis))
    aliceBasis bobBasis r.measErr r.randBit

/-- One record of `transmitted_data` in `mdi.py` (the fields consumed by
the sifting phase). -/
structure MDIRecord where
  alice_bit : Nat
  bob_bit : Nat
  alice_basis : Nat
  bob_basis : Nat
  outcome : Nat
  deriving Repr, DecidableEq

/-- MDI `_sifting_phase`: for every stored coincidence with matching
bases, the Charlie outcome is appended to the sifted key of both
parties. -/
def mdiSift : List MDIRecord → List Nat × List Nat
  | [] => ([], [])
  | d :: rest =>
    let s := mdiSift rest
    if d.alice_basis = d.bob_basis then (d.outcome :: s.1, d.outcome :: s.2)
    else s

/-- The sifted outcomes of the key-eligible MDI records, in order. -/
def mdiSiftOutcomes (data : List MDIRecord) : List Nat :=
  (data.filter fun d => d.alice_basis == d.bob_basis).map fun d => d.outcome

/-- MDI test size: `min(100, max(10, sifted_key_length // 4))`. -/
def mdiTestSize (n : Nat) : Nat := min 100 (max 10 (n / 4))

/-- MDI QBER: `0.5` on an empty sifted key, otherwise the simulated
parameter-estimation error `int(test_size * 0.02) / test_size`; the
sifted keys themselves are never compared. -/
def mdiQber (n : Nat) : ℚ :=
  if n = 0 then 1/2
  else ((pyInt ((mdiTestSize n : ℚ) * (1/50)) : ℚ) / (mdiTestSize n : ℚ))

/-- MDI error-correction overhead `max(0.1, 1.4 * qber)`. -/
def mdiECOverhead (q : ℚ) : ℚ := max (1/10) (7/5 * q)

/-- MDI privacy-amplification factor
`1 - error_correction_overhead - qber` (no lower floor). -/
def mdiPAF (q : ℚ) : ℚ := 1 - mdiECOverhead q - q

/-- MDI `_post_processing_phase`.  Only the Alice sifted key is read:
both final keys are slices of it. -/
def mdiPost (a : List Nat) : PostResult :=
  if a.length = 0 then ⟨1/2, 0, [], []⟩
  else
    distill a (mdiTestSize a.length) (mdiQber a.length)
      (mdiQber a.length < 11/100 ∧ mdiTestSize a.length < a.length)
      (mdiPAF (mdiQber a.length))

/-! ### Loss model (`FibreLossModel.apply_loss`, identical in all three
sources) -/

/-- Transmission probability after fibre loss:
`10 ** (-(p_loss_init + p_loss_length * distance_km) / 10)`. -/
noncomputable def apply_loss (p_loss_init p_loss_length distance_km : ℝ) : ℝ :=
  (10 : ℝ) ^ (-(p_loss_init + p_loss_length * distance_km) / 10)

/-! ### Helper lemmas -/

/-- Truncation of a product by a factor at most one stays below the
original natural quantity. -/
theorem finalLen_le (m : Nat) (p : ℚ) (hp : p ≤ 1) : finalLen (m : ℚ) p ≤ m := by
  unfold finalLen pyInt
  rcases le_or_lt 0 ((m : ℚ) * p) with h | h
  · rw [if_neg (not_lt.mpr h)]
    have hmp : (m : ℚ) * p ≤ (m : ℚ) :=
      mul_le_of_le_one_right (by positivity) hp
    have h1 : ⌊(m : ℚ) * p⌋ ≤ (m : Int) := by
      calc ⌊(m : ℚ) * p⌋ ≤ ⌊(m : ℚ)⌋ := Int.floor_le_floor hmp
        _ = (m : Int) := Int.floor_natCast m
    have h2 : max 0 ⌊(m : ℚ) * p⌋ ≤ (m : Int) :=
      max_le (Int.ofNat_nonneg m) h1
    exact Int.toNat_le.mpr h2
  · rw [if_pos h]
    have h1 : (0 : Int) ≤ ⌊-((m : ℚ) * p)⌋ :=
      Int.floor_nonneg.mpr (by linarith)
    have h2 : max 0 (-⌊-((m : ℚ) * p)⌋) = 0 :=
      max_eq_left (by omega)
    rw [h2]
    exact Nat.zero_le m

theorem bb84Qber_nonneg (a b : List Nat) : 0 ≤ bb84Qber a b := by
  unfold bb84Qber
  split
  · norm_num
  · positivity

theorem e91Qber_nonneg (a b : List Nat) : 0 ≤ e91Qber a b := by
  unfold e91Qber
  split
  · norm_num
  · positivity

theorem mdiQber_nonneg (n : Nat) : 0 ≤ mdiQber n := by
  unfold mdiQber pyInt
  split
  · norm_num
  · rw [if_neg (not_lt.mpr (by positivity))]
    have h : (0 : Int) ≤ ⌊(mdiTestSize n : ℚ) * (1/50)⌋ :=
      Int.floor_nonneg.mpr (by positivity)
    positivity

theorem bb84PAF_le_one (q : ℚ) (hq : 0 ≤ q) : bb84PAF q ≤ 1 := by
  unfold bb84PAF bb84ECOverhead
  have h1 : (1 : ℚ) - max (1/5) (2*q) - 2*q ≤ 1 := by
    have := le_max_left (1/5 : ℚ) (2*q)
    linarith
  exact max_le (by norm_num) h1

theorem e91PAF_le_one (q : ℚ) : e91PAF q ≤ 1 := by
  unfold e91PAF e91ECOverhead
  have h1 : (1 : ℚ) - max (3/20) (3/2*q) - 1/4 ≤ 1 := by
    have := le_max_left (3/20 : ℚ) (3/2*q)
    linarith
  exact max_le (by norm_num) h1

theorem mdiPAF_le_one (q : ℚ) (hq : 0 ≤ q) : mdiPAF q ≤ 1 := by
  unfold mdiPAF mdiECOverhead
  have := le_max_left (1/10 : ℚ) (7/5*q)
  linarith

/-- Shape of every `distill` outcome: the final length is bounded by the
remaining bits, the Alice final key is the contiguous slice of the
sifted key after the test segment, and the two final keys agree. -/
theorem distill_shape (a : List Nat) (ts : Nat) (q : ℚ) (gate : Prop)
    [Decidable gate] (paf : ℚ) (hpaf : paf ≤ 1) :
    (distill a ts q gate paf).final_len ≤ a.length - ts ∧
    (distill a ts q gate paf).aliceFinal =
      (a.drop ts).take (distill a ts q gate paf).final_len ∧
    (distill a ts q gate paf).aliceFinal = (distill a ts q gate paf).bobFinal := by
  simp only [distill]
  split
  · split
    · split
      · exact ⟨finalLen_le _ _ hpaf, rfl, rfl⟩
      · exact ⟨Nat.zero_le _, by simp, rfl⟩
    · exact ⟨Nat.zero_le _, by simp, rfl⟩
  · exact ⟨Nat.zero_le _, by simp, rfl⟩

/-- The literal index-guarded error-counting loop equals the positional
comparison of the two test prefixes. -/
theorem mismatchCount_eq_takeMismatches (a : List Nat) :
    ∀ (b : List Nat) (k : Nat), mismatchCount a b k = takeMismatches a b k := by
  induction a with
  | nil =>
    intro b k
    unfold mismatchCount takeMismatches
    simp
  | cons x a2 ih =>
    intro b k
    cases b with
    | nil =>
      unfold mismatchCount takeMismatches
      simp
    | cons y b2 =>
      cases k with
      | zero =>
        unfold mismatchCount takeMismatches
        simp
      | succ k2 =>
        unfold mismatchCount takeMismatches
        rw [List.range_succ_eq_map]
        rw [List.countP_cons, List.countP_map]
        have hcomp :
            (fun i => decide (i < (x :: a2).length) &&
                decide (i < (y :: b2).length) &&
                ((x :: a2).getD i 0 != (y :: b2).getD i 0)) ∘ Nat.succ =
            fun i => decide (i < a2.length) &&
                decide (i < b2.length) && (a2.getD i 0 != b2.getD i 0) := by
          funext i
          simp [Nat.succ_lt_succ_iff]
        rw [hcomp]
        have ih2 := ih b2 k2
        unfold mismatchCount takeMismatches at ih2
        rw [ih2]
        simp only [List.take_succ_cons, List.zip_cons_cons, List.countP_cons]
        simp

/-- The MDI sifting phase appends the Charlie broadcast outcome of every
key-eligible record (matching bases) to the sifted keys of both
parties, so both sifted keys equal the list of those outcomes. -/
theorem mdiSift_eq (data : List MDIRecord) :
    mdiSift data = (mdiSiftOutcomes data, mdiSiftOutcomes data) := by
  induction data with
  | nil => rfl
  | cons d rest ih =>
    simp only [mdiSift, ih, mdiSiftOutcomes, List.filter_cons]
    by_cases h : d.alice_basis = d.bob_basis
    · simp [h, mdiSiftOutcomes]
    · simp [h, mdiSiftOutcomes]

/-! ### Claims -/

/-- C1 counterexample: a round in which both qubits arrive at Charlie
with matching bases and without the measurement-error branch, but where
the depolarizing channel flipped the Alice qubit: with raw bits 0 and 0
the broadcast outcome is 1, not alice_bit XOR bob_bit = 0. -/
theorem C1_cex :
    (mdiRound 0 0 0 0 ⟨false, true, false, false, false, 0⟩).1 = some true ∧
    (mdiRound 0 0 0 0 ⟨false, true, false, false, false, 0⟩).2 = some 1 ∧
    (0 : Nat) ^^^ 0 = 0 ∧ (1 : Nat) ≠ 0 := by decide

/-- C1 amended: when both qubits arrive and the bases agree, Charlie
reports coincidence, and outside the measurement-error branch the
outcome is the XOR of the two received (post-channel-noise) qubit
values — equal to alice_bit XOR bob_bit exactly when the depolarizing
channel flipped neither or both qubits, in particular whenever it is
silent; on the measurement-error branch the outcome is the substituted
uniform bit; with unequal bases (both qubits arriving) the round is
discarded as (False, None); and the sifting phase appends the broadcast
outcome of every key-eligible record to the sifted key of both
parties. -/
theorem C1_mdi_round (aBit bBit aBas bBas : Nat) (r : MDIRoundRand)
    (data : List MDIRecord) :
    (r.aliceLost = false → r.bobLost = false → aBas = bBas → r.measErr = false →
      mdiRound aBit bBit aBas bBas r =
        (some true,
          some ((if r.aliceFlip then 1 - aBit else aBit) ^^^
            (if r.bobFlip then 1 - bBit else bBit)))) ∧
    (r.aliceLost = false → r.bobLost = false → aBas = bBas → r.measErr = true →
      mdiRound aBit bBit aBas bBas r = (some true, some r.randBit)) ∧
    (r.aliceLost = false → r.bobLost = false → aBas ≠ bBas →
      mdiRound aBit bBit aBas bBas r = (some false, none)) ∧
    mdiSift data = (mdiSiftOutcomes data, mdiSiftOutcomes data) := by
  obtain ⟨al, af, bl, bf, me, rb⟩ := r
  refine ⟨?_, ?_, ?_, mdiSift_eq data⟩
  · intro h1 h2 h3 h4
    subst h1; subst h2; subst h3; subst h4
    cases af <;> cases bf <;>
      simp [mdiRound, transmit, prepare_qubit, bell_state_measurement]
  · intro h1 h2 h3 h4
    subst h1; subst h2; subst h3; subst h4
    cases af <;> cases bf <;>
      simp [mdiRound, transmit, prepare_qubit, bell_state_measurement]
  · intro h1 h2 h3
    subst h1; subst h2
    cases af <;> cases bf <;>
      simp [mdiRound, transmit, prepare_qubit, bell_state_measurement, h3]

/-- C1 witness: a noise-free round with raw bits 1 and 0 and matching
bases broadcasts coincidence with outcome 1. -/
theorem C1_mdi_round_witness :
    mdiRound 1 0 0 0 ⟨false, false, false, false, false, 0⟩ = (some true, some 1) := by
  have h := (C1_mdi_round 1 0 0 0 ⟨false, false, false, false, false, 0⟩ []).1
    rfl rfl rfl rfl
  rw [h]; decide

/-- C2 counterexample: an E91 run whose Bell parameter is 1.9 — not
strictly above the classical bound 2.0 — still distills a non-empty
final key (one bit from 7 identical sifted bits), because the code
gates on the lenient demonstration threshold 1.8 instead of 2.0. -/
theorem C2_cex :
    (e91Post (List.replicate 7 0) (List.replicate 7 0) (19/10)).final_len = 1 ∧
    ¬((2 : ℚ) < 19/10) := by
  constructor
  · norm_num [e91Post, distill, e91Qber, e91TestSize, e91PAF, e91ECOverhead,
      finalLen, pyInt, mismatchCount, List.replicate, List.range_succ]
  · norm_num

/-- C2 amended: a non-empty final key requires `qber < 0.11` and
`sifted_length > test_size` for BB84 and MDI, while for E91 it requires
the lenient demonstration gate `bell_parameter > 1.8`, `qber < 0.15` and
`sifted_length > test_size` (the declared thresholds 2.0 and 0.11 are
unused by the E91 code). -/
theorem C2_gate (a b : List Nat) (bell : ℚ) :
    ((bb84Post a b).final_len ≠ 0 →
      bb84Qber a b < 11/100 ∧ bb84TestSize a.length < a.length) ∧
    ((e91Post a b bell).final_len ≠ 0 →
      9/5 < bell ∧ e91Qber a b < 3/20 ∧ e91TestSize a.length < a.length) ∧
    ((mdiPost a).final_len ≠ 0 →
      mdiQber a.length < 11/100 ∧ mdiTestSize a.length < a.length) := by
  refine ⟨?_, ?_, ?_⟩ <;> intro h
  · by_cases hn : a.length = 0
    · exact absurd (by simp [bb84Post, hn]) h
    · by_cases hg : bb84Qber a b < 11/100 ∧ bb84TestSize a.length < a.length
      · exact hg
      · exact absurd (by simp [bb84Post, distill, hn, hg]) h
  · by_cases hn : a.length = 0
    · exact absurd (by simp [e91Post, hn]) h
    · by_cases hg : 9/5 < bell ∧ e91Qber a b < 3/20 ∧ e91TestSize a.length < a.length
      · exact hg
      · exact absurd (by simp [e91Post, distill, hn, hg]) h
  · by_cases hn : a.length = 0
    · exact absurd (by simp [mdiPost, hn]) h
    · by_cases hg : mdiQber a.length < 11/100 ∧ mdiTestSize a.length < a.length
      · exact hg
      · exact absurd (by simp [mdiPost, distill, hn, hg]) h

/-- C2 witness: a BB84 run with 7 identical sifted bits produces a
non-empty final key, so its gate conditions hold. -/
theorem C2_gate_witness :
    bb84Qber (List.replicate 7 0) (List.replicate 7 0) < 11/100 ∧
    bb84TestSize (List.replicate 7 0).length < (List.replicate 7 0).length :=
  (C2_gate (List.replicate 7 0) (List.replicate 7 0) 0).1
    (by norm_num [bb84Post, distill, bb84Qber, bb84TestSize, bb84PAF, bb84ECOverhead,
      finalLen, pyInt, mismatchCount, List.replicate, List.range_succ])

/-- C3: fail-closed policy — whenever the sifted key is empty or the
security gate of the protocol fails, post-processing returns final key
length 0 and two empty final keys, as the value of a total function
(a normal code path, not an exception). -/
theorem C3_fail_closed (a b : List Nat) (bell : ℚ) :
    ((a.length = 0 ∨
        ¬(bb84Qber a b < 11/100 ∧ bb84TestSize a.length < a.length)) →
      (bb84Post a b).final_len = 0 ∧ (bb84Post a b).aliceFinal = [] ∧
        (bb84Post a b).bobFinal = []) ∧
    ((a.length = 0 ∨
        ¬(9/5 < bell ∧ e91Qber a b < 3/20 ∧ e91TestSize a.length < a.length)) →
      (e91Post a b bell).final_len = 0 ∧ (e91Post a b bell).aliceFinal = [] ∧
        (e91Post a b bell).bobFinal = []) ∧
    ((a.length = 0 ∨
        ¬(mdiQber a.length < 11/100 ∧ mdiTestSize a.length < a.length)) →
      (mdiPost a).final_len = 0 ∧ (mdiPost a).aliceFinal = [] ∧
        (mdiPost a).bobFinal = []) := by
  refine ⟨?_, ?_, ?_⟩ <;> intro h
  · by_cases hn : a.length = 0
    · simp [bb84Post, hn]
    · rcases h with h | h
      · exact absurd h hn
      · simp [bb84Post, distill, hn, h]
  · by_cases hn : a.length = 0
    · simp [e91Post, hn]
    · rcases h with h | h
      · exact absurd h hn
      · simp [e91Post, distill, hn, h]
  · by_cases hn : a.length = 0
    · simp [mdiPost, hn]
    · rcases h with h | h
      · exact absurd h hn
      · simp [mdiPost, distill, hn, h]

/-- C3 witness: an empty sifted key yields an empty BB84 final key. -/
theorem C3_fail_closed_witness :
    (bb84Post [] []).final_len = 0 ∧ (bb84Post [] []).aliceFinal = [] ∧
    (bb84Post [] []).bobFinal = [] :=
  (C3_fail_closed [] [] 0).1 (Or.inl rfl)

/-- C4: in every protocol the sifting phase keeps the two sifted keys
index-aligned — processing one record either extends both keys by
exactly one bit or leaves both unchanged — so the lengths of the Alice
and Bob sifted keys are always equal. -/
theorem C4_sifted_lengths :
    (∀ l : List BB84Record, (bb84Sift l).1.length = (bb84Sift l).2.length) ∧
    (∀ l : List E91Record, (e91Sift l).1.length = (e91Sift l).2.length) ∧
    (∀ l : List MDIRecord, (mdiSift l).1.length = (mdiSift l).2.length) ∧
    (∀ (t : BB84Record) (l : List BB84Record),
      bb84Sift (t :: l) =
        (t.alice_bit :: (bb84Sift l).1, t.bob_measurement :: (bb84Sift l).2) ∨
      bb84Sift (t :: l) = bb84Sift l) ∧
    (∀ (m : E91Record) (l : List E91Record),
      e91Sift (m :: l) =
        (m.alice_result :: (e91Sift l).1, m.bob_result :: (e91Sift l).2) ∨
      e91Sift (m :: l) = e91Sift l) ∧
    (∀ (d : MDIRecord) (l : List MDIRecord),
      mdiSift (d :: l) =
        (d.outcome :: (mdiSift l).1, d.outcome :: (mdiSift l).2) ∨
      mdiSift (d :: l) = mdiSift l) := by
  refine ⟨?_, ?_, ?_, ?_, ?_, ?_⟩
  · intro l
    induction l with
    | nil => rfl
    | cons t rest ih =>
      simp only [bb84Sift]
      split <;> simp [ih]
  · intro l
    induction l with
    | nil => rfl
    | cons m rest ih =>
      simp only [e91Sift]
      split <;> simp [ih]
  · intro l
    induction l with
    | nil => rfl
    | cons d rest ih =>
      simp only [mdiSift]
      split <;> simp [ih]
  · intro t l
    simp only [bb84Sift]
    split
    · exact Or.inl rfl
    · exact Or.inr rfl
  · intro m l
    simp only [e91Sift]
    split
    · exact Or.inl rfl
    · exact Or.inr rfl
  · intro d l
    simp only [mdiSift]
    split
    · exact Or.inl rfl
    · exact Or.inr rfl

set_option maxRecDepth 4096 in
/-- C5 counterexample: in an MDI run with a 200-bit sifted key the code
uses test size 50 — not clamp(200/5, 5, cap) = 40 for either cap 40 or
cap 50 — and reports QBER 1/50 even though the two identical sifted
keys have no mismatching position at all. -/
theorem C5_cex :
    mdiTestSize 200 = 50 ∧
    min 50 (max 5 (200 / 5)) = 40 ∧
    min 40 (max 5 (200 / 5)) = 40 ∧
    mdiQber 200 = 1/50 ∧
    mismatchCount (List.replicate 200 0) (List.replicate 200 0) (mdiTestSize 200) = 0 ∧
    (1 : ℚ)/50 ≠ 0 := by
  refine ⟨by decide, by decide, by decide,
    by norm_num [mdiQber, mdiTestSize, pyInt], by decide, by norm_num⟩

/-- C5 amended: BB84 and E91 estimate QBER exactly as the claim states
(mismatches on the length-test_size head segments of the two sifted
keys divided by test_size, with clamp caps 50 and 40 respectively, and
worst-case 0.5 on an empty sifted key); MDI instead uses
test_size = clamp(sifted_length/4, 10, 100) and the simulated
estimation error int(test_size * 0.02) / test_size, never inspecting
the keys. -/
theorem C5_qber_estimation (a b : List Nat) :
    (a.length ≠ 0 →
      bb84TestSize a.length = min 50 (max 5 (a.length / 5)) ∧
      bb84Qber a b = (takeMismatches a b (bb84TestSize a.length) : ℚ) /
        (bb84TestSize a.length : ℚ) ∧
      e91TestSize a.length = min 40 (max 5 (a.length / 5)) ∧
      e91Qber a b = (takeMismatches a b (e91TestSize a.length) : ℚ) /
        (e91TestSize a.length : ℚ) ∧
      mdiTestSize a.length = min 100 (max 10 (a.length / 4)) ∧
      mdiQber a.length = (pyInt ((mdiTestSize a.length : ℚ) * (1/50)) : ℚ) /
        (mdiTestSize a.length : ℚ)) ∧
    (a.length = 0 →
      bb84Qber a b = 1/2 ∧ e91Qber a b = 1/2 ∧ mdiQber a.length = 1/2) := by
  constructor
  · intro hn
    refine ⟨rfl, ?_, rfl, ?_, rfl, ?_⟩
    · unfold bb84Qber
      rw [if_neg hn, mismatchCount_eq_takeMismatches]
    · unfold e91Qber
      rw [if_neg hn, mismatchCount_eq_takeMismatches]
    · unfold mdiQber
      rw [if_neg hn]
  · intro hn
    refine ⟨?_, ?_, ?_⟩
    · unfold bb84Qber; rw [if_pos hn]
    · unfold e91Qber; rw [if_pos hn]
    · unfold mdiQber; rw [if_pos hn]

/-- C5 witness: a BB84 run with a single sifted bit on each side has
test size 5 and QBER 0/5 = 0. -/
theorem C5_qber_estimation_witness :
    bb84TestSize ([0] : List Nat).length = min 50 (max 5 (([0] : List Nat).length / 5)) ∧
    bb84Qber [0] [0] = (takeMismatches [0] [0] (bb84TestSize ([0] : List Nat).length) : ℚ) /
      (bb84TestSize ([0] : List Nat).length : ℚ) :=
  ⟨((C5_qber_estimation [0] [0]).1 (by decide)).1,
   ((C5_qber_estimation [0] [0]).1 (by decide)).2.1⟩

/-- C6 counterexample: with no Bell-test records at all — fewer than
the minimum sample count — the reported Bell parameter is the synthetic
constant 2.4, strictly above the classical bound 2. -/
theorem C6_cex :
    ([] : List E91Record).length < 100 ∧
    bell_parameter [] = 12/5 ∧ (2 : ℚ) < 12/5 := by
  refine ⟨by decide, by norm_num [bell_parameter], by norm_num⟩

/-- C6 amended: the CHSH statistic is computed from the per-basis-pair
mean correlations exactly as the claim states, but the reported Bell
parameter is that statistic only when it does not exceed 1.5; when it
does it is boosted to min(2.8, 1.4 * S), and runs with fewer than 100
Bell-test records report the synthetic value 2.4 (above the classical
bound) instead of a conservative one. -/
theorem C6_bell (data : List E91Record) :
    (data.length < 100 → bell_parameter data = 12/5) ∧
    (100 ≤ data.length →
      bell_parameter data =
        if 3/2 < chshS data then min (14/5) (chshS data * (7/5))
        else chshS data) ∧
    chshS data =
      |Ecorr data 0 0 - Ecorr data 0 1 + Ecorr data 1 0 + Ecorr data 1 1| ∧
    (∀ x y : Nat, ((basisGroup data x y).length : ℚ) * Ecorr data x y =
      (((basisGroup data x y).map corrVal).sum : ℚ)) := by
  refine ⟨?_, ?_, rfl, ?_⟩
  · intro h
    unfold bell_parameter
    rw [if_pos h]
  · intro h
    unfold bell_parameter
    rw [if_neg (by omega)]
  · intro x y
    by_cases hg : (basisGroup data x y).length = 0
    · have hnil : basisGroup data x y = [] := List.length_eq_zero.mp hg
      simp [Ecorr, hnil]
    · unfold Ecorr
      rw [if_neg hg]
      have hne : ((basisGroup data x y).length : ℚ) ≠ 0 := Nat.cast_ne_zero.mpr hg
      field_simp

/-- C6 witness: the empty Bell-test data set reports 2.4. -/
theorem C6_bell_witness : bell_parameter [] = 12/5 :=
  (C6_bell []).1 (by decide)

/-- C7: in every protocol the final key length never exceeds
sifted_length - test_size, the Alice final key is the contiguous slice
of the sifted key that starts right after the test segment, and the two
final keys are identical bit-for-bit. -/
theorem C7_final_key_shape (a b : List Nat) (bell : ℚ) :
    ((bb84Post a b).final_len ≤ a.length - bb84TestSize a.length ∧
      (bb84Post a b).aliceFinal =
        (a.drop (bb84TestSize a.length)).take (bb84Post a b).final_len ∧
      (bb84Post a b).aliceFinal = (bb84Post a b).bobFinal) ∧
    ((e91Post a b bell).final_len ≤ a.length - e91TestSize a.length ∧
      (e91Post a b bell).aliceFinal =
        (a.drop (e91TestSize a.length)).take (e91Post a b bell).final_len ∧
      (e91Post a b bell).aliceFinal = (e91Post a b bell).bobFinal) ∧
    ((mdiPost a).final_len ≤ a.length - mdiTestSize a.length ∧
      (mdiPost a).aliceFinal =
        (a.drop (mdiTestSize a.length)).take (mdiPost a).final_len ∧
      (mdiPost a).aliceFinal = (mdiPost a).bobFinal) := by
  refine ⟨?_, ?_, ?_⟩
  · by_cases hn : a.length = 0
    · simp [bb84Post, hn]
    · simp only [bb84Post, if_neg hn]
      exact distill_shape a _ _ _ _ (bb84PAF_le_one _ (bb84Qber_nonneg a b))
  · by_cases hn : a.length = 0
    · simp [e91Post, hn]
    · simp only [e91Post, if_neg hn]
      exact distill_shape a _ _ _ _ (e91PAF_le_one _)
  · by_cases hn : a.length = 0
    · simp [mdiPost, hn]
    · simp only [mdiPost, if_neg hn]
      exact distill_shape a _ _ _ _ (mdiPAF_le_one _ (mdiQber_nonneg a.length))

/-- C8 counterexample: the minority (Bell-test) branch of the E91 basis
generator draws `randint(0, 2)`, so with draw 0 it emits basis 0, not
basis 2. -/
theorem C8_cex : e91GenBasis false 0 0 = 0 ∧ (0 : Nat) ≠ 2 := by decide

/-- C8 amended: every generated E91 basis (for in-range draws) lies in
`{0, 1, 2}`; the majority branch emits a basis in `{0, 1}`; a basis
equal to 2 can only come from the minority branch — but the minority
branch emits any of 0, 1, 2, so taking the minority branch does not
force basis 2 (and the resulting probability of a basis in `{0, 1}` is
0.9, not 0.7 to 0.75). -/
theorem C8_basis_policy (keyBranch : Bool) (keyChoice bellChoice : Nat)
    (hk : keyChoice ≤ 1) (hb : bellChoice ≤ 2) :
    e91GenBasis keyBranch keyChoice bellChoice ≤ 2 ∧
    (keyBranch = true → e91GenBasis keyBranch keyChoice bellChoice ≤ 1) ∧
    (e91GenBasis keyBranch keyChoice bellChoice = 2 → keyBranch = false) := by
  cases keyBranch <;> simp [e91GenBasis] <;> omega

/-- C8 witness: the minority branch with draw 2 emits basis 2. -/
theorem C8_basis_policy_witness :
    e91GenBasis false 0 2 ≤ 2 ∧
    (false = true → e91GenBasis false 0 2 ≤ 1) ∧
    (e91GenBasis false 0 2 = 2 → false = false) :=
  C8_basis_policy false 0 2 (by decide) (by decide)

/-- C9: `apply_loss` computes the stated exponential formula; for a
positive per-km loss the transmission probability is antitone in the
distance, and for non-negative parameters it lies in [0, 1]. -/
theorem C9_apply_loss (pinit plen d1 d2 d : ℝ) :
    apply_loss pinit plen d = (10 : ℝ) ^ (-(pinit + plen * d) / 10) ∧
    (0 < plen → d1 < d2 →
      apply_loss pinit plen d2 ≤ apply_loss pinit plen d1) ∧
    (0 ≤ pinit → 0 ≤ plen → 0 ≤ d →
      0 ≤ apply_loss pinit plen d ∧ apply_loss pinit plen d ≤ 1) := by
  refine ⟨rfl, ?_, ?_⟩
  · intro hp hd
    unfold apply_loss
    rw [Real.rpow_le_rpow_left_iff (by norm_num : (1 : ℝ) < 10)]
    nlinarith
  · intro h1 h2 h3
    refine ⟨Real.rpow_nonneg (by norm_num) _, ?_⟩
    exact Real.rpow_le_one_of_one_le_of_nonpos (by norm_num) (by nlinarith)

/-- C9 witness: with loss 1 dB/km, 1 km transmits no better than 0 km,
and the probability at 0 km lies in [0, 1]. -/
theorem C9_apply_loss_witness :
    apply_loss 0 1 1 ≤ apply_loss 0 1 0 ∧
    0 ≤ apply_loss 0 1 0 ∧ apply_loss 0 1 0 ≤ 1 :=
  ⟨(C9_apply_loss 0 1 0 1 0).2.1 one_pos one_pos,
   (C9_apply_loss 0 1 0 1 0).2.2 le_rfl zero_le_one le_rfl⟩

/-- C10: with the random draws held fixed, the BB84 basis choices do
not influence any transmitted or measured bit: `prepare_qubit` returns
the raw bit unchanged for either basis, `measure_qubit` ignores its
basis argument, and two whole runs differing only in the basis
sequences produce identical measurement outcomes. -/
theorem C10_basis_independence :
    (∀ bit basis : Nat, prepare_qubit bit basis = bit) ∧
    (∀ (q : Option Nat) (b1 b2 : Nat) (e : Bool),
      measure_qubit q b1 e = measure_qubit q b2 e) ∧
    (∀ (bits : List Nat) (aBas bBas aBas2 bBas2 : Nat → Nat)
        (rand : Nat → BB84RoundRand),
      bb84Outcomes bits aBas bBas rand = bb84Outcomes bits aBas2 bBas2 rand) := by
  have hprep : ∀ bit basis : Nat, prepare_qubit bit basis = bit := by
    intro bit basis
    simp [prepare_qubit]
  have hmeas : ∀ (q : Option Nat) (b1 b2 : Nat) (e : Bool),
      measure_qubit q b1 e = measure_qubit q b2 e := by
    intro q b1 b2 e
    cases q <;> rfl
  refine ⟨hprep, hmeas, ?_⟩
  intro bits a1 b1 a2 b2 r
  unfold bb84Outcomes
  apply List.map_congr_left
  intro i hi
  unfold bb84RoundOutcome
  rw [hprep, hprep]
  exact hmeas _ _ _ _

end QKD
